import Mathlib

/-!
Shallow embedding of the per-cell survival resolution engine and the
board-level bookkeeping of the natural-selection game (src/model.py),
together with proofs of the testable properties stated for it.

Modelling conventions:
* Python `int` is modelled by `Int`; Python lists by `List`.
* Each animal object carries a `pid : Nat` modelling Python object identity
  (`id()`); the source uses `in` / `not in` on lists of animal objects, which
  compares by object identity, so those checks are embedded as comparisons of
  `pid`.  Freshly constructed animals receive fresh pids from a counter
  threaded through the state.
* `random.randrange(2) == 0` draws are modelled by a stream `coins : Nat → Bool`
  together with an index that advances each time the source draws.
* Python `list.sort` is a stable sort; it is embedded with
  `List.insertionSort`, which is also stable.
-/

/-- The `PredatorModel` class of src/model.py: skill level, birth round, and
the remaining starvation budget.  `pid` models Python object identity. -/
structure PredatorModel where
  pid : Nat
  skill_level : Int
  birth_round : Int
  rounds_until_starvation : Int
deriving DecidableEq, Repr

/-- The `PreyModel` class of src/model.py: skill level and birth round.
`pid` models Python object identity. -/
structure PreyModel where
  pid : Nat
  skill_level : Int
  birth_round : Int
deriving DecidableEq, Repr

/-- The `SquareModel` class of src/model.py (its mutable per-round state).
The board position is omitted (never read by the resolution algorithm).
`nextId` is the supply of fresh object identities for newborn animals. -/
structure SquareModel where
  current_round : Int
  default_rounds_until_starvation : Int
  winner : Int
  predators : List PredatorModel
  prey : List PreyModel
  predator_births : List PredatorModel
  predator_deaths : List PredatorModel
  prey_births : List PreyModel
  prey_deaths : List PreyModel
  nextId : Nat
deriving DecidableEq, Repr

/-- Ascending order on prey by skill level: the key used by
`self.prey.sort(key=lambda prey: prey.skill_level)`. -/
def preyLE (a b : PreyModel) : Prop := a.skill_level ≤ b.skill_level

instance : DecidableRel preyLE := fun a b => Int.decLe a.skill_level b.skill_level

instance : IsTotal PreyModel preyLE := ⟨fun a b => Int.le_total a.skill_level b.skill_level⟩

instance : IsTrans PreyModel preyLE := ⟨fun _ _ _ h1 h2 => le_trans h1 h2⟩

/-- Descending order on predators by skill level: the key used by
`self.predators.sort(reverse=True, key=lambda predator: predator.skill_level)`.
A stable sort under this relation coincides with the stable descending sort
performed by Python `sort(reverse=True)`. -/
def predGE (a b : PredatorModel) : Prop := b.skill_level ≤ a.skill_level

instance : DecidableRel predGE := fun a b => Int.decLe b.skill_level a.skill_level

instance : IsTotal PredatorModel predGE := ⟨fun a b => Int.le_total b.skill_level a.skill_level⟩

instance : IsTrans PredatorModel predGE := ⟨fun _ _ _ h1 h2 => le_trans h2 h1⟩

/-- Descending order on prey by skill level, used by the population-cap culling
in `BoardModel.modify_board_survivors`. -/
def preyGE (a b : PreyModel) : Prop := b.skill_level ≤ a.skill_level

instance : DecidableRel preyGE := fun a b => Int.decLe b.skill_level a.skill_level

instance : IsTotal PreyModel preyGE := ⟨fun a b => Int.le_total b.skill_level a.skill_level⟩

instance : IsTrans PreyModel preyGE := ⟨fun _ _ _ h1 h2 => le_trans h2 h1⟩

/-- `SquareModel.record_predator_eating_and_reproducing` from src/model.py:
the eating predator and the eaten prey are appended to the death lists, and two
predator offspring are appended to the birth list, at skill levels
`parent.skill_level + 1` and (for nonzero parents) `parent.skill_level - 1`,
with the minus offspring duplicating a level-0 parent instead.  (The assert at
the top of the source method holds at both call sites and is not modelled.) -/
def record_predator_eating_and_reproducing (s : SquareModel) (parent : PredatorModel)
    (eaten : PreyModel) : SquareModel :=
  { s with
    predator_deaths := s.predator_deaths ++ [parent]
    prey_deaths := s.prey_deaths ++ [eaten]
    predator_births := s.predator_births ++
      [ { pid := s.nextId, skill_level := parent.skill_level + 1,
          birth_round := s.current_round + 1,
          rounds_until_starvation := s.default_rounds_until_starvation },
        if parent.skill_level = 0 then
          { pid := s.nextId + 1, skill_level := parent.skill_level,
            birth_round := s.current_round + 1,
            rounds_until_starvation := s.default_rounds_until_starvation }
        else
          { pid := s.nextId + 1, skill_level := parent.skill_level - 1,
            birth_round := s.current_round + 1,
            rounds_until_starvation := s.default_rounds_until_starvation } ]
    nextId := s.nextId + 2 }

/-- `SquareModel.record_prey_reproducing` from src/model.py: the reproducing
prey is appended to the death list and two prey offspring are appended to the
birth list, with the same zero-floor rule as for predators. -/
def record_prey_reproducing (s : SquareModel) (parent : PreyModel) : SquareModel :=
  { s with
    prey_deaths := s.prey_deaths ++ [parent]
    prey_births := s.prey_births ++
      [ { pid := s.nextId, skill_level := parent.skill_level + 1,
          birth_round := s.current_round + 1 },
        if parent.skill_level = 0 then
          { pid := s.nextId + 1, skill_level := parent.skill_level,
            birth_round := s.current_round + 1 }
        else
          { pid := s.nextId + 1, skill_level := parent.skill_level - 1,
            birth_round := s.current_round + 1 } ]
    nextId := s.nextId + 2 }

/-- The list comprehension
`[surviving_prey for surviving_prey in self.prey if surviving_prey not in self.prey_deaths]`
evaluated inside the predator loop of `determine_survivors`. -/
def survivingPrey (s : SquareModel) : List PreyModel :=
  s.prey.filter (fun q => !(s.prey_deaths.any (fun d => d.pid == q.pid)))

/-- The inner prey scan of `determine_survivors` for a single predator:
walks the surviving prey in (ascending) list order and returns the prey this
predator eats, if any, together with the advanced coin index.  A coin is drawn
exactly when the source calls `randrange(2)`, i.e. on every equal-skill
encounter; `coins k = true` models `randrange(2) == 0` (the prey is eaten). -/
def scanPrey (pred : PredatorModel) (coins : Nat → Bool) :
    List PreyModel → Nat → Option PreyModel × Nat
  | [], k => (none, k)
  | q :: rest, k =>
    if q.skill_level < pred.skill_level then (some q, k)
    else if q.skill_level = pred.skill_level then
      if coins k then (some q, k + 1) else scanPrey pred coins rest (k + 1)
    else scanPrey pred coins rest k

/-- One iteration of the outer predator loop of `determine_survivors`: the
predator either eats (recording the eating-and-reproduction event) or fails to
eat and has its starvation budget decremented.  Returns the updated square,
the advanced coin index, and the (possibly decremented) predator object. -/
def predatorTurn (coins : Nat → Bool) (s : SquareModel) (k : Nat) (pred : PredatorModel) :
    SquareModel × Nat × PredatorModel :=
  match scanPrey pred coins (survivingPrey s) k with
  | (some q, k2) => (record_predator_eating_and_reproducing s pred q, k2, pred)
  | (none, k2) =>
    (s, k2, { pred with rounds_until_starvation := pred.rounds_until_starvation - 1 })

/-- The full predator loop of `determine_survivors`, iterating `predatorTurn`
over the (already sorted) predator list.  Returns the predator list with the
in-place starvation-budget mutations applied, the updated square, and the
final coin index. -/
def predatorPass (coins : Nat → Bool) :
    List PredatorModel → SquareModel → Nat → List PredatorModel × SquareModel × Nat
  | [], s, k => ([], s, k)
  | p :: ps, s, k =>
    let t := predatorTurn coins s k p
    let r := predatorPass coins ps t.1 t.2.1
    (t.2.2 :: r.1, r.2.1, r.2.2)

/-- The two in-place sorts at the top of `determine_survivors`: prey ascending
and predators descending by skill level (both stable). -/
def sortPhase (s : SquareModel) : SquareModel :=
  { s with
    prey := s.prey.insertionSort preyLE
    predators := s.predators.insertionSort predGE }

/-- The predator loop of `determine_survivors` run on a square: iterates over
`s.predators` and stores the mutated predator objects back. -/
def passPhase (coins : Nat → Bool) (s : SquareModel) (k : Nat) : SquareModel × Nat :=
  let r := predatorPass coins s.predators s k
  ({ r.2.1 with predators := r.1 }, r.2.2)

/-- The lone-prey reproduction step of `determine_survivors`: if
`len(self.prey) == 1` and that prey is not in `self.prey_deaths`, it
reproduces. -/
def lonePreyPhase (s : SquareModel) : SquareModel :=
  match s.prey with
  | [q] =>
    if s.prey_deaths.any (fun d => d.pid == q.pid) then s else record_prey_reproducing s q
  | _ => s

/-- The starvation step of `determine_survivors`: every predator not already in
the death list whose `rounds_until_starvation` has reached 0 is appended to the
death list (in list order, matching the source loop). -/
def starvationPhase (s : SquareModel) : SquareModel :=
  { s with
    predator_deaths := s.predator_deaths ++
      s.predators.filter (fun p =>
        !(s.predator_deaths.any (fun d => d.pid == p.pid))
          && p.rounds_until_starvation == 0) }

/-- `SquareModel.enact_changes_to_births_and_deaths` from src/model.py:
survivors are the animals not in the death lists, extended with the births. -/
def enact_changes_to_births_and_deaths (s : SquareModel) : SquareModel :=
  { s with
    predators :=
      s.predators.filter (fun p => !(s.predator_deaths.any (fun d => d.pid == p.pid)))
        ++ s.predator_births
    prey :=
      s.prey.filter (fun q => !(s.prey_deaths.any (fun d => d.pid == q.pid)))
        ++ s.prey_births }

/-- The return value of `determine_survivors`: -1 if the predator population
change exceeds the prey population change, 1 in the opposite case, 0 on a
tie. -/
def squareOutcome (s : SquareModel) : Int :=
  let predChange : Int := (s.predator_births.length : Int) - (s.predator_deaths.length : Int)
  let preyChange : Int := (s.prey_births.length : Int) - (s.prey_deaths.length : Int)
  if preyChange < predChange then -1
  else if predChange < preyChange then 1
  else 0

/-- `SquareModel.determine_survivors` from src/model.py, as the composition of
its phases: sort, predator loop, lone-prey reproduction, starvation, enactment
of births and deaths, and outcome computation.  Returns the outcome code, the
updated square, and the advanced coin index. -/
def determine_survivors (coins : Nat → Bool) (s : SquareModel) (k : Nat) :
    Int × SquareModel × Nat :=
  let r := passPhase coins (sortPhase s) k
  let s5 := enact_changes_to_births_and_deaths (starvationPhase (lonePreyPhase r.1))
  (squareOutcome s5, s5, r.2)

/-- The inner loop of `BoardModel.modify_board_survivors` over the squares of
one column: resolves each square, stores the winner code on it, and collects
the post-resolution predators and prey in order. -/
def resolveSquares (coins : Nat → Bool) :
    List SquareModel → Nat →
      List SquareModel × (List PredatorModel × List PreyModel) × Nat
  | [], k => ([], ([], []), k)
  | sq :: rest, k =>
    let t := determine_survivors coins sq k
    let r := resolveSquares coins rest t.2.2
    ({ t.2.1 with winner := t.1 } :: r.1,
     (t.2.1.predators ++ r.2.1.1, t.2.1.prey ++ r.2.1.2), r.2.2)

/-- The double loop of `BoardModel.modify_board_survivors` over all columns of
the board, collecting the new survivor pools. -/
def resolveBoard (coins : Nat → Bool) :
    List (List SquareModel) → Nat →
      List (List SquareModel) × (List PredatorModel × List PreyModel) × Nat
  | [], k => ([], ([], []), k)
  | col :: cols, k =>
    let t := resolveSquares coins col k
    let r := resolveBoard coins cols t.2.2
    (t.1 :: r.1, (t.2.1.1 ++ r.2.1.1, t.2.1.2 ++ r.2.1.2), r.2.2)

/-- `BoardModel.modify_board_survivors` from src/model.py: resolves every
square, collects the survivors, always sorts both pools by descending skill
level, and truncates a pool to the population cap `board_length ** 2 * 4`
whenever its size exceeds the cap.  (The source method then recomputes the
aggregate statistics; those computations, modelled separately below, do not
modify the survivor pools.)  Returns the new survivor pools, the updated
board, and the advanced coin index. -/
def modify_board_survivors (coins : Nat → Bool) (board_length : Nat)
    (board : List (List SquareModel)) (k : Nat) :
    (List PredatorModel × List PreyModel) × List (List SquareModel) × Nat :=
  let r := resolveBoard coins board k
  let preds := r.2.1.1
  let prey := r.2.1.2
  let population_cap := board_length ^ 2 * 4
  let num_living_predators := preds.length
  let num_living_prey := prey.length
  let sortedPreds := preds.insertionSort predGE
  let sortedPrey := prey.insertionSort preyGE
  ((if population_cap < num_living_predators then sortedPreds.take population_cap
      else sortedPreds,
    if population_cap < num_living_prey then sortedPrey.take population_cap
      else sortedPrey),
   r.1, r.2.2)

/-- Python `round(x, 1)`: rounding to one decimal place.  The source rounds
IEEE doubles (round-half-even); this model rounds exact rationals, which
agrees except for ties and floating-point representation error. -/
def round1 (x : ℚ) : ℚ := (round (x * 10) : ℚ) / 10

/-- `BoardModel.calculate_average_levels` from src/model.py: the mean skill
level of each side, rounded to one decimal.  The source divides by the length
of each survivor list with no emptiness guard; a zero length raises
`ZeroDivisionError`, modelled by `none`. -/
def calculate_average_levels (survivors : List PredatorModel × List PreyModel) :
    Option (ℚ × ℚ) :=
  match survivors with
  | (predators, prey) =>
    if predators.length = 0 then none
    else if prey.length = 0 then none
    else
      some (round1 ((predators.map (fun p => (p.skill_level : ℚ))).sum / predators.length),
            round1 ((prey.map (fun q => (q.skill_level : ℚ))).sum / prey.length))

/-- `BoardModel.calculate_average_hunger_level` from src/model.py: the mean
starvation budget over the living predators, rounded to one decimal.  The
unguarded division by the predator count raises `ZeroDivisionError` when there
are no predators, modelled by `none`. -/
def calculate_average_hunger_level (predators : List PredatorModel) : Option ℚ :=
  if predators.length = 0 then none
  else
    some (round1 ((predators.map (fun p => (p.rounds_until_starvation : ℚ))).sum
      / predators.length))

/-- The `while curr_level <= 8` loop of `BoardModel.create_animals` (default
branch).  `animals` is the accumulated pair of lists; `predLocal`/`preyLocal`
are the loop-local `predators`/`prey` variables, which after the loop hold
only the batch created by the final iteration.  `fuel` bounds the recursion
and is at least the remaining iteration count at every call (the loop itself
terminates because `curr_level` grows past 8). -/
def createAnimalsLoop (rus : Int) :
    Nat → Nat → Nat →
      List PredatorModel × List PreyModel → List PredatorModel × List PreyModel → Nat →
      (List PredatorModel × List PreyModel) × (List PredatorModel × List PreyModel) × Nat
  | 0, _, _, animals, predLocal, nid => (animals, predLocal, nid)
  | fuel + 1, curr_level, num_pieces, animals, locals, nid =>
    if curr_level ≤ 8 then
      let predators := (List.range num_pieces).map
        (fun i => PredatorModel.mk (nid + i) (curr_level : Int) 1 rus)
      let prey := (List.range num_pieces).map
        (fun i => PreyModel.mk (nid + num_pieces + i) (curr_level : Int) 1)
      let num_pieces1 := if curr_level < 5 then num_pieces + 1 else num_pieces - 1
      createAnimalsLoop rus fuel (curr_level + 1) num_pieces1
        (animals.1 ++ predators, animals.2 ++ prey) (predators, prey)
        (nid + 2 * num_pieces)
    else (animals, locals, nid)

/-- `BoardModel.create_animals` from src/model.py.  In the default branch
(`customized_starting_animals == "off"`) the loop builds the triangular level
histogram into `animals`; the `board_length == 1` special case then executes
`predators = predators[:4]` and `prey = prey[:4]`, which rebind the loop-local
variables only — the returned `animals` tuple is not affected.  That dead
rebinding is kept here as an unused binding to mirror the source.  In the
customized branch the requested numbers of animals are appended at the
requested levels (the preconditions asserted by the source are not modelled).
-/
def create_animals (customized_starting_animals : String) (board_length : Nat)
    (rounds_until_starvation : Int) (predator_starting_level prey_starting_level : Int)
    (num_initial_predators num_initial_prey : Nat) (nid : Nat) :
    List PredatorModel × List PreyModel :=
  if customized_starting_animals = "off" then
    match createAnimalsLoop rounds_until_starvation 9 2 1 ([], []) ([], []) nid with
    | (animals, locals, _) =>
      let _ := if board_length = 1 then (locals.1.take 4, locals.2.take 4) else locals
      animals
  else
    ((List.range num_initial_predators).map
        (fun i => PredatorModel.mk (nid + i) predator_starting_level 0 rounds_until_starvation),
     (List.range num_initial_prey).map
        (fun i => PreyModel.mk (nid + num_initial_predators + i) prey_starting_level 0))

/-- A Python value stored in the settings dictionary (`str | int`). -/
inductive PyVal where
  | str : String → PyVal
  | int : Int → PyVal
deriving DecidableEq, Repr

/-- The `SettingNotFound` exception of src/exceptions.py, tagged with which of
the two raise sites in `CurrentSettings.update_settings` produced it
(messages "First settings key ..." and "Second settings key ..."). -/
inductive SettingNotFound where
  | firstKeyMissing
  | secondKeyMissing
deriving DecidableEq, Repr

/-- The two-level settings dictionary `all_settings_dict`, as an ordered
association list (Python dicts preserve insertion order). -/
abbrev SettingsDict := List (String × List (String × PyVal))

/-- Python `inner[key] = v` on a dict modelled as an ordered association list:
replaces the value when the key is present, otherwise appends the new pair. -/
def dictSet (inner : List (String × PyVal)) (key : String) (v : PyVal) :
    List (String × PyVal) :=
  if inner.any (fun kv => kv.1 == key) then
    inner.map (fun kv => if kv.1 == key then (key, v) else kv)
  else inner ++ [(key, v)]

/-- The inner keys collected by
`[key for dicty in self.all_settings_dict.values() for key in dicty]`. -/
def innerKeys (dict : SettingsDict) : List String :=
  (dict.map (fun c => c.2.map (fun kv => kv.1))).flatten

/-- `CurrentSettings.update_settings` from src/model.py: raises
`SettingNotFound` when the first key is not an outer key, then when the second
key occurs in no category; otherwise writes the value under
`dict[first_key][second_key]` and sets the attribute named by the second key
(modelled by returning the `(second_key, value)` pair alongside the updated
dictionary). -/
def update_settings (dict : SettingsDict) (first_settings_key second_settings_key : String)
    (new_user_setting : PyVal) :
    Except SettingNotFound (SettingsDict × String × PyVal) :=
  if !(dict.any (fun c => c.1 == first_settings_key)) then
    .error SettingNotFound.firstKeyMissing
  else if !((innerKeys dict).contains second_settings_key) then
    .error SettingNotFound.secondKeyMissing
  else
    .ok (dict.map (fun c =>
          if c.1 == first_settings_key then (c.1, dictSet c.2 second_settings_key new_user_setting)
          else c),
         second_settings_key, new_user_setting)

/-- Python `max(iterable, key=f)` specialised to an association list keyed by
strings with natural-number values: keeps the current maximum and replaces it
only on a strictly larger value, so the first maximal entry wins. -/
def maxKeyAux (current : String × Nat) : List (String × Nat) → String
  | [] => current.1
  | x :: xs => if current.2 < x.2 then maxKeyAux x xs else maxKeyAux current xs

/-- `BoardModel.find_winner` from src/model.py:
`max(self.round_wins, key=lambda k: self.round_wins[k])` over the tally
dictionary, which is created as `{'predator': 0, 'prey': 0}` in
`BoardModel.__init__` and only ever has these two values incremented
(`calculate_total_populations`), so iteration order is always
predator-then-prey. -/
def find_winner (predator_wins prey_wins : Nat) : String :=
  maxKeyAux ("predator", predator_wins) [("prey", prey_wins)]

/-- A constant coin stream (every equal-skill contest is decided in the
predator's favour); used to instantiate theorems at concrete inputs. -/
def coinsTrue : Nat → Bool := fun _ => true

/-- A concrete cell: two level-5 predators against a single level-1 prey. -/
def cellTwoDominant : SquareModel :=
  { current_round := 1, default_rounds_until_starvation := 3, winner := 0,
    predators := [⟨0, 5, 1, 3⟩, ⟨1, 5, 1, 3⟩], prey := [⟨2, 1, 1⟩],
    predator_births := [], predator_deaths := [], prey_births := [],
    prey_deaths := [], nextId := 10 }

/-- A concrete cell: one level-3 predator and one level-0 predator against a
single level-2 prey (scenario E of the specification). -/
def cellScenE : SquareModel :=
  { current_round := 1, default_rounds_until_starvation := 3, winner := 0,
    predators := [⟨0, 3, 1, 2⟩, ⟨1, 0, 1, 1⟩], prey := [⟨2, 2, 1⟩],
    predator_births := [], predator_deaths := [], prey_births := [],
    prey_deaths := [], nextId := 10 }

/-- A concrete cell holding a single level-2 prey and no predators. -/
def cellLonePrey : SquareModel :=
  { current_round := 1, default_rounds_until_starvation := 3, winner := 0,
    predators := [], prey := [⟨0, 2, 1⟩],
    predator_births := [], predator_deaths := [], prey_births := [],
    prey_deaths := [], nextId := 10 }

/-- Concrete predator list (skill levels 4, 3, 6; budgets 2, 3, 2), matching
the doctest of `calculate_average_levels`. -/
def predsEx : List PredatorModel := [⟨0, 4, 1, 2⟩, ⟨1, 3, 1, 3⟩, ⟨2, 6, 1, 2⟩]

/-- Concrete prey list (skill levels 6, 4, 7), matching the doctest of
`calculate_average_levels`. -/
def preyEx : List PreyModel := [⟨3, 6, 1⟩, ⟨4, 4, 1⟩, ⟨5, 7, 1⟩]

/-- A concrete two-category settings dictionary: the field
`num_initial_predators` lives in the category `predator` and the field
`prey_symbol` lives in the category `prey`. -/
def settingsDictEx : SettingsDict :=
  [("predator", [("num_initial_predators", PyVal.int 16)]),
   ("prey", [("prey_symbol", PyVal.str "circle")])]

/-! ## Validation of the embedding against the specification scenarios -/

/-- Scenario B of the specification: a cell with one prey at skill level 1 and
no predators returns PreyWin and leaves two prey offspring at levels 2 and 0. -/
theorem scenarioB_check :
    (determine_survivors coinsTrue
      { current_round := 1, default_rounds_until_starvation := 3, winner := 0,
        predators := [], prey := [⟨0, 1, 1⟩], predator_births := [],
        predator_deaths := [], prey_births := [], prey_deaths := [],
        nextId := 10 } 0).1 = 1
  ∧ ((determine_survivors coinsTrue
      { current_round := 1, default_rounds_until_starvation := 3, winner := 0,
        predators := [], prey := [⟨0, 1, 1⟩], predator_births := [],
        predator_deaths := [], prey_births := [], prey_deaths := [],
        nextId := 10 } 0).2.1.prey.map (fun q => q.skill_level)) = [2, 0] := by decide

/-- Scenario D of the specification: a lone predator with starvation budget 1
and no prey starves; the cell returns PreyWin with no predators left. -/
theorem scenarioD_check :
    (determine_survivors coinsTrue
      { current_round := 1, default_rounds_until_starvation := 3, winner := 0,
        predators := [⟨0, 1, 1, 1⟩], prey := [], predator_births := [],
        predator_deaths := [], prey_births := [], prey_deaths := [],
        nextId := 10 } 0).1 = 1
  ∧ (determine_survivors coinsTrue
      { current_round := 1, default_rounds_until_starvation := 3, winner := 0,
        predators := [⟨0, 1, 1, 1⟩], prey := [], predator_births := [],
        predator_deaths := [], prey_births := [], prey_deaths := [],
        nextId := 10 } 0).2.1.predators = [] := by decide

/-- Scenario E of the specification: the level-3 predator eats the level-2
prey and reproduces (offspring at levels 4 and 2), the level-0 predator
starves; the cell returns PredatorWin with two predators and no prey. -/
theorem scenarioE_check :
    (determine_survivors coinsTrue cellScenE 0).1 = -1
  ∧ ((determine_survivors coinsTrue cellScenE 0).2.1.predators.map
      (fun p => p.skill_level)) = [4, 2]
  ∧ (determine_survivors coinsTrue cellScenE 0).2.1.prey = [] := by decide

/-! ## C3: zero-floor reproduction -/

/-- C3: for every parent with `skill_level ≥ 0`, both reproduction helpers
append exactly two offspring to the birth list: one at the parent level plus
one, the other at the parent level minus one — except that a level-0 parent
begets the second offspring at level 0 — and every offspring level is ≥ 0. -/
theorem reproduction_zero_floor (s : SquareModel) (parent : PredatorModel)
    (eaten : PreyModel) (preyParent : PreyModel)
    (hpred : 0 ≤ parent.skill_level) (hprey : 0 ≤ preyParent.skill_level) :
    (∃ c1 c2,
      (record_predator_eating_and_reproducing s parent eaten).predator_births
          = s.predator_births ++ [c1, c2]
        ∧ c1.skill_level = parent.skill_level + 1
        ∧ c2.skill_level =
            (if parent.skill_level = 0 then parent.skill_level
             else parent.skill_level - 1)
        ∧ 0 ≤ c1.skill_level ∧ 0 ≤ c2.skill_level)
  ∧ (∃ d1 d2,
      (record_prey_reproducing s preyParent).prey_births
          = s.prey_births ++ [d1, d2]
        ∧ d1.skill_level = preyParent.skill_level + 1
        ∧ d2.skill_level =
            (if preyParent.skill_level = 0 then preyParent.skill_level
             else preyParent.skill_level - 1)
        ∧ 0 ≤ d1.skill_level ∧ 0 ≤ d2.skill_level) := by
  constructor
  · refine ⟨_, _, rfl, rfl, ?_, by show 0 ≤ parent.skill_level + 1; omega, ?_⟩
    · by_cases h : parent.skill_level = 0 <;> simp [h]
    · by_cases h : parent.skill_level = 0
      · simp [h]
      · simp [h]; omega
  · refine ⟨_, _, rfl, rfl, ?_, by show 0 ≤ preyParent.skill_level + 1; omega, ?_⟩
    · by_cases h : preyParent.skill_level = 0 <;> simp [h]
    · by_cases h : preyParent.skill_level = 0
      · simp [h]
      · simp [h]; omega

/-- Witness for `reproduction_zero_floor` at a level-0 predator parent and a
level-0 prey parent (the clamped case). -/
theorem reproduction_zero_floor_witness :
    (∃ c1 c2,
      (record_predator_eating_and_reproducing cellScenE ⟨1, 0, 1, 1⟩
          ⟨2, 0, 1⟩).predator_births
          = cellScenE.predator_births ++ [c1, c2]
        ∧ c1.skill_level = (⟨1, 0, 1, 1⟩ : PredatorModel).skill_level + 1
        ∧ c2.skill_level =
            (if (⟨1, 0, 1, 1⟩ : PredatorModel).skill_level = 0 then
              (⟨1, 0, 1, 1⟩ : PredatorModel).skill_level
             else (⟨1, 0, 1, 1⟩ : PredatorModel).skill_level - 1)
        ∧ 0 ≤ c1.skill_level ∧ 0 ≤ c2.skill_level)
  ∧ (∃ d1 d2,
      (record_prey_reproducing cellScenE ⟨2, 0, 1⟩).prey_births
          = cellScenE.prey_births ++ [d1, d2]
        ∧ d1.skill_level = (⟨2, 0, 1⟩ : PreyModel).skill_level + 1
        ∧ d2.skill_level =
            (if (⟨2, 0, 1⟩ : PreyModel).skill_level = 0 then
              (⟨2, 0, 1⟩ : PreyModel).skill_level
             else (⟨2, 0, 1⟩ : PreyModel).skill_level - 1)
        ∧ 0 ≤ d1.skill_level ∧ 0 ≤ d2.skill_level) :=
  reproduction_zero_floor cellScenE ⟨1, 0, 1, 1⟩ ⟨2, 0, 1⟩ ⟨2, 0, 1⟩
    (by decide) (by decide)

/-! ## C6: default starting animals -/

/-- C6: evidence of the code bug in `create_animals`.  With customization off,
the default branch builds the triangular histogram of 16 predators and 16 prey
over levels 2..8 — but on a `board_length == 1` board the `[:4]` trim rebinds
the loop-local variables rather than the returned lists, so the function still
returns 16 animals per side (the code comment and the downstream capacity
assertion of `set_board` require 4). -/
theorem create_animals_board1_untrimmed :
    (create_animals "off" 1 3 0 0 0 0 0).1.length = 16
  ∧ (create_animals "off" 1 3 0 0 0 0 0).2.length = 16
  ∧ ((create_animals "off" 1 3 0 0 0 0 0).1.map (fun p => p.skill_level))
      = [2, 3, 3, 4, 4, 4, 5, 5, 5, 5, 6, 6, 6, 7, 7, 8]
  ∧ ((create_animals "off" 1 3 0 0 0 0 0).2.map (fun q => q.skill_level))
      = [2, 3, 3, 4, 4, 4, 5, 5, 5, 5, 6, 6, 6, 7, 7, 8]
  ∧ ((create_animals "off" 1 3 0 0 0 0 0).1.map (fun p => p.rounds_until_starvation))
      = List.replicate 16 3 := by decide

/-! ## C7: empty cell is a tie with no mutation -/

/-- C7: resolving a cell whose predator and prey lists are both empty returns
the tie outcome 0 and leaves the cell state unchanged (all four birth and
death lists stay empty), for every coin stream and coin index. -/
theorem determine_survivors_empty_cell (coins : Nat → Bool) (k : Nat)
    (r d w : Int) (nid : Nat) :
    determine_survivors coins
      { current_round := r, default_rounds_until_starvation := d, winner := w,
        predators := [], prey := [], predator_births := [], predator_deaths := [],
        prey_births := [], prey_deaths := [], nextId := nid } k
    = (0,
       { current_round := r, default_rounds_until_starvation := d, winner := w,
         predators := [], prey := [], predator_births := [], predator_deaths := [],
         prey_births := [], prey_deaths := [], nextId := nid }, k) := rfl

/-! ## C9: aggregate averages -/

/-- C9 (amended): for every survivors pool in which both sides are nonempty,
the snapshot computation completes, producing the mean skill level per side
and the mean starvation budget over living predators, each rounded to one
decimal. -/
theorem calculate_averages_nonempty (preds : List PredatorModel)
    (prey : List PreyModel) (h1 : preds ≠ []) (h2 : prey ≠ []) :
    calculate_average_levels (preds, prey)
        = some (round1 ((preds.map (fun p => (p.skill_level : ℚ))).sum / preds.length),
                round1 ((prey.map (fun q => (q.skill_level : ℚ))).sum / prey.length))
  ∧ calculate_average_hunger_level preds
        = some (round1 ((preds.map (fun p => (p.rounds_until_starvation : ℚ))).sum
            / preds.length)) := by
  have l1 : preds.length ≠ 0 := fun h => h1 (List.length_eq_zero.1 h)
  have l2 : prey.length ≠ 0 := fun h => h2 (List.length_eq_zero.1 h)
  exact ⟨by simp [calculate_average_levels, l1, l2],
         by simp [calculate_average_hunger_level, l1]⟩

/-- Witness for `calculate_averages_nonempty` at the concrete pools of the
`calculate_average_levels` doctest. -/
theorem calculate_averages_nonempty_witness :
    calculate_average_levels (predsEx, preyEx)
        = some (round1 ((predsEx.map (fun p => (p.skill_level : ℚ))).sum / predsEx.length),
                round1 ((preyEx.map (fun q => (q.skill_level : ℚ))).sum / preyEx.length))
  ∧ calculate_average_hunger_level predsEx
        = some (round1 ((predsEx.map (fun p => (p.rounds_until_starvation : ℚ))).sum
            / predsEx.length)) :=
  calculate_averages_nonempty predsEx preyEx (by decide) (by decide)

/-- C9 counterexample to the claim as stated: on a pool whose predator side is
empty — the state after a predator extinction — the unguarded divisions by the
population counts fail (`ZeroDivisionError` in the source, `none` here), so
the snapshot computation does not complete. -/
theorem calculate_averages_zero_population :
    calculate_average_levels ([], [⟨0, 3, 1⟩]) = none
  ∧ calculate_average_hunger_level [] = none := ⟨rfl, rfl⟩

/-! ## C10: game winner tie-break -/

/-- C10: `find_winner` returns the side with the strictly larger win tally and
returns `predator` on a tie, because Python `max` keeps the first key of the
tally dictionary (insertion order predator-then-prey) unless a later one is
strictly larger. -/
theorem find_winner_first_key_on_tie (a b : Nat) :
    find_winner a b = if b ≤ a then "predator" else "prey" := by
  by_cases h : b ≤ a
  · have hn : ¬ a < b := not_lt.2 h
    simp [find_winner, maxKeyAux, hn, h]
  · have hl : a < b := not_le.1 h
    simp [find_winner, maxKeyAux, hl, h]

/-! ## C8: update_settings error discrimination -/

/-- C8 (amended): `update_settings` raises the first-key `SettingNotFound`
exactly when the category is unknown, and the second-key `SettingNotFound`
exactly when the category is known but the field name occurs in no category
at all (the source collects the inner keys of every category, not just the
addressed one); when the category is known and the field occurs in some
category, it updates `dict[category][field]` and sets the attribute without
raising — even when the field belongs to a different category. -/
theorem update_settings_spec (dict : SettingsDict) (k1 k2 : String) (v : PyVal) :
    (update_settings dict k1 k2 v = .error SettingNotFound.firstKeyMissing
        ↔ k1 ∉ dict.map (fun c => c.1))
  ∧ (update_settings dict k1 k2 v = .error SettingNotFound.secondKeyMissing
        ↔ (k1 ∈ dict.map (fun c => c.1) ∧ k2 ∉ innerKeys dict))
  ∧ (k1 ∈ dict.map (fun c => c.1) → k2 ∈ innerKeys dict →
      update_settings dict k1 k2 v
        = .ok (dict.map (fun c =>
            if c.1 == k1 then (c.1, dictSet c.2 k2 v) else c), k2, v)) := by
  have hb1 : (dict.any (fun c => c.1 == k1) = true) ↔ k1 ∈ dict.map (fun c => c.1) := by
    simp [List.any_eq_true]
  have hb2 : ((innerKeys dict).contains k2 = true) ↔ k2 ∈ innerKeys dict := by
    simp
  by_cases h1 : k1 ∈ dict.map (fun c => c.1)
  · by_cases h2 : k2 ∈ innerKeys dict
    · simp [update_settings, hb1.2 h1, hb2.2 h2, h1, h2]
    · have b2 : (innerKeys dict).contains k2 = false := by
        rw [← Bool.not_eq_true]; exact fun h => h2 (hb2.1 h)
      simp [update_settings, hb1.2 h1, b2, h1, h2]
  · have b1 : (dict.any (fun c => c.1 == k1)) = false := by
      rw [← Bool.not_eq_true]; exact fun h => h1 (hb1.1 h)
    simp [update_settings, b1, h1]

/-- Witness for `update_settings_spec` at the concrete dictionary
`settingsDictEx` with a valid category and field. -/
theorem update_settings_spec_witness :
    (update_settings settingsDictEx "predator" "num_initial_predators" (PyVal.int 10)
        = .error SettingNotFound.firstKeyMissing
      ↔ "predator" ∉ settingsDictEx.map (fun c => c.1))
  ∧ (update_settings settingsDictEx "predator" "num_initial_predators" (PyVal.int 10)
        = .error SettingNotFound.secondKeyMissing
      ↔ ("predator" ∈ settingsDictEx.map (fun c => c.1)
          ∧ "num_initial_predators" ∉ innerKeys settingsDictEx))
  ∧ ("predator" ∈ settingsDictEx.map (fun c => c.1) →
      "num_initial_predators" ∈ innerKeys settingsDictEx →
      update_settings settingsDictEx "predator" "num_initial_predators" (PyVal.int 10)
        = .ok (settingsDictEx.map (fun c =>
            if c.1 == "predator" then
              (c.1, dictSet c.2 "num_initial_predators" (PyVal.int 10))
            else c), "num_initial_predators", PyVal.int 10)) :=
  update_settings_spec settingsDictEx "predator" "num_initial_predators" (PyVal.int 10)

/-- C8 counterexample to the claim as stated: `prey_symbol` is not a field of
the category `predator`, yet referencing it under `predator` does not raise —
the second check scans the inner keys of every category, so the update
silently inserts `prey_symbol` into the `predator` category. -/
theorem update_settings_cross_category :
    (∀ c ∈ settingsDictEx, c.1 = "predator" → "prey_symbol" ∉ c.2.map (fun kv => kv.1))
  ∧ update_settings settingsDictEx "predator" "prey_symbol" (PyVal.str "x")
      = .ok ([("predator", [("num_initial_predators", PyVal.int 16),
                            ("prey_symbol", PyVal.str "x")]),
              ("prey", [("prey_symbol", PyVal.str "circle")])],
             "prey_symbol", PyVal.str "x") := by
  constructor
  · decide
  · rfl

/-! ## C2: global population cap -/

/-- The population-cap culling of `modify_board_survivors` applied to one
pool: the result never exceeds the cap, and when the pool exceeds the cap,
the result is exactly the first `cap` elements of the descending-sorted pool
and every discarded animal is bounded by every kept one under `r`. -/
theorem cull_spec {α : Type} (r : α → α → Prop) [DecidableRel r] [IsTotal α r]
    [IsTrans α r] (l : List α) (cap : Nat) :
    (if cap < l.length then (l.insertionSort r).take cap else l.insertionSort r).length ≤ cap
  ∧ (cap < l.length →
      ((if cap < l.length then (l.insertionSort r).take cap else l.insertionSort r)
          = (l.insertionSort r).take cap)
        ∧ (if cap < l.length then (l.insertionSort r).take cap
            else l.insertionSort r).length = cap
        ∧ ∀ p ∈ (l.insertionSort r).take cap, ∀ q ∈ (l.insertionSort r).drop cap, r p q) := by
  have hlen : (l.insertionSort r).length = l.length :=
    (List.perm_insertionSort r l).length_eq
  have hsorted : (l.insertionSort r).Pairwise r := List.sorted_insertionSort r l
  constructor
  · by_cases h : cap < l.length
    · simp [h, List.length_take]
    · simp [h, hlen, Nat.le_of_not_lt h]
  · intro h
    refine ⟨by simp [h], ?_, ?_⟩
    · simp [h, List.length_take, hlen, Nat.le_of_lt h]
    · intro p hp q hq
      exact hsorted.rel_of_mem_take_of_mem_drop hp hq

/-- C2: after every call to `modify_board_survivors`, each survivor pool has
at most `board_length ^ 2 * 4` animals; and whenever the collected pool of a
side exceeds that cap, the pool kept is exactly the first cap elements of
that pool sorted by descending skill level — the highest-skill animals — and
every discarded animal has skill level at most that of every kept one. -/
theorem modify_board_survivors_cap (coins : Nat → Bool) (L : Nat)
    (board : List (List SquareModel)) (k : Nat) :
    (modify_board_survivors coins L board k).1.1.length ≤ L ^ 2 * 4
  ∧ (modify_board_survivors coins L board k).1.2.length ≤ L ^ 2 * 4
  ∧ (L ^ 2 * 4 < (resolveBoard coins board k).2.1.1.length →
      (modify_board_survivors coins L board k).1.1
          = ((resolveBoard coins board k).2.1.1.insertionSort predGE).take (L ^ 2 * 4)
        ∧ (modify_board_survivors coins L board k).1.1.length = L ^ 2 * 4
        ∧ ∀ p ∈ (modify_board_survivors coins L board k).1.1,
            ∀ q ∈ ((resolveBoard coins board k).2.1.1.insertionSort predGE).drop (L ^ 2 * 4),
              q.skill_level ≤ p.skill_level)
  ∧ (L ^ 2 * 4 < (resolveBoard coins board k).2.1.2.length →
      (modify_board_survivors coins L board k).1.2
          = ((resolveBoard coins board k).2.1.2.insertionSort preyGE).take (L ^ 2 * 4)
        ∧ (modify_board_survivors coins L board k).1.2.length = L ^ 2 * 4
        ∧ ∀ p ∈ (modify_board_survivors coins L board k).1.2,
            ∀ q ∈ ((resolveBoard coins board k).2.1.2.insertionSort preyGE).drop (L ^ 2 * 4),
              q.skill_level ≤ p.skill_level) := by
  have hp := cull_spec predGE ((resolveBoard coins board k).2.1.1) (L ^ 2 * 4)
  have hq := cull_spec preyGE ((resolveBoard coins board k).2.1.2) (L ^ 2 * 4)
  have e1 : (modify_board_survivors coins L board k).1.1
      = (if L ^ 2 * 4 < (resolveBoard coins board k).2.1.1.length then
          ((resolveBoard coins board k).2.1.1.insertionSort predGE).take (L ^ 2 * 4)
        else (resolveBoard coins board k).2.1.1.insertionSort predGE) := rfl
  have e2 : (modify_board_survivors coins L board k).1.2
      = (if L ^ 2 * 4 < (resolveBoard coins board k).2.1.2.length then
          ((resolveBoard coins board k).2.1.2.insertionSort preyGE).take (L ^ 2 * 4)
        else (resolveBoard coins board k).2.1.2.insertionSort preyGE) := rfl
  refine ⟨by rw [e1]; exact hp.1, by rw [e2]; exact hq.1, ?_, ?_⟩
  · intro h
    obtain ⟨ha, hb, hc⟩ := hp.2 h
    exact ⟨by rw [e1]; exact ha, by rw [e1]; exact hb,
           fun p hmem q hqmem => hc p (by rw [e1] at hmem; rw [ha] at hmem; exact hmem) q hqmem⟩
  · intro h
    obtain ⟨ha, hb, hc⟩ := hq.2 h
    exact ⟨by rw [e2]; exact ha, by rw [e2]; exact hb,
           fun p hmem q hqmem => hc p (by rw [e2] at hmem; rw [ha] at hmem; exact hmem) q hqmem⟩

/-! ## C5: strictly dominant predators -/

/-- C5 (amended): when a predator whose skill level strictly exceeds that of
every prey in the cell takes its turn and at least one prey is still uneaten,
it eats exactly one prey — the weakest still-surviving one (no coin is drawn
and its starvation budget is untouched).  If earlier predators have already
eaten every prey, the scan finds no surviving prey and the predator eats
nothing, so the guarantee is per-turn, not cell-wide. -/
theorem dominant_predator_turn (coins : Nat → Bool) (s : SquareModel) (k : Nat)
    (pred : PredatorModel)
    (hdom : ∀ q ∈ s.prey, q.skill_level < pred.skill_level)
    (hsur : survivingPrey s ≠ [])
    (hsort : s.prey.Pairwise preyLE) :
    predatorTurn coins s k pred
        = (record_predator_eating_and_reproducing s pred
            ((survivingPrey s).head hsur), k, pred)
  ∧ ∀ r ∈ survivingPrey s,
      ((survivingPrey s).head hsur).skill_level ≤ r.skill_level := by
  obtain ⟨q, t, hqt⟩ := List.exists_cons_of_ne_nil hsur
  have hq_sur : q ∈ survivingPrey s := by rw [hqt]; exact List.mem_cons_self q t
  have hq_mem : q ∈ s.prey := List.mem_of_mem_filter hq_sur
  have hqskill : q.skill_level < pred.skill_level := hdom q hq_mem
  have hhead : (survivingPrey s).head hsur = q := by simp [hqt]
  have hscan : scanPrey pred coins (survivingPrey s) k = (some q, k) := by
    rw [hqt]; simp [scanPrey, hqskill]
  constructor
  · rw [hhead]
    simp only [predatorTurn, hscan]
  · intro x hx
    rw [hhead]
    have hpair : (survivingPrey s).Pairwise preyLE :=
      hsort.sublist (List.filter_sublist _)
    rw [hqt] at hpair hx
    rcases List.mem_cons.1 hx with h | h
    · rw [h]
    · exact (List.pairwise_cons.1 hpair).1 x h

/-- Witness for `dominant_predator_turn`: a level-5 predator taking its turn
in a cell holding a single surviving level-2 prey. -/
theorem dominant_predator_turn_witness :
    predatorTurn coinsTrue cellLonePrey 0 ⟨9, 5, 1, 3⟩
        = (record_predator_eating_and_reproducing cellLonePrey ⟨9, 5, 1, 3⟩
            ((survivingPrey cellLonePrey).head (by decide)), 0, ⟨9, 5, 1, 3⟩)
  ∧ ∀ r ∈ survivingPrey cellLonePrey,
      ((survivingPrey cellLonePrey).head (by decide)).skill_level ≤ r.skill_level :=
  dominant_predator_turn coinsTrue cellLonePrey 0 ⟨9, 5, 1, 3⟩
    (by decide) (by decide) (by decide)

/-- C5 counterexample to the claim as stated: in `cellTwoDominant` both
predators (level 5) are strictly stronger than every prey (a single level-1
prey), yet resolution records only one prey death and one pair of predator
births — exactly one eating event.  If every strictly dominant predator ate
exactly one prey, there would be two prey deaths and four predator births, so
the second dominant predator ate zero prey. -/
theorem dominant_predator_eats_zero :
    (∀ p ∈ cellTwoDominant.predators, ∀ q ∈ cellTwoDominant.prey,
        q.skill_level < p.skill_level)
  ∧ cellTwoDominant.predators.length = 2
  ∧ cellTwoDominant.prey.length = 1
  ∧ (determine_survivors coinsTrue cellTwoDominant 0).2.1.prey_deaths.length = 1
  ∧ (determine_survivors coinsTrue cellTwoDominant 0).2.1.predator_births.length = 2 := by
  decide

/-! ## C4: lone-prey reproduction -/

/-- The predator loop touches only the predator death and birth lists, the
prey death list, and the fresh-id counter: the prey list, the prey birth
list, the stored predator list and the square constants pass through
unchanged. -/
theorem predatorPass_preserves (coins : Nat → Bool) (ps : List PredatorModel)
    (s : SquareModel) (k : Nat) :
    (predatorPass coins ps s k).2.1.prey = s.prey
  ∧ (predatorPass coins ps s k).2.1.prey_births = s.prey_births
  ∧ (predatorPass coins ps s k).2.1.predators = s.predators
  ∧ (predatorPass coins ps s k).2.1.current_round = s.current_round
  ∧ (predatorPass coins ps s k).2.1.default_rounds_until_starvation
      = s.default_rounds_until_starvation
  ∧ (predatorPass coins ps s k).2.1.winner = s.winner := by
  induction ps generalizing s k with
  | nil => exact ⟨rfl, rfl, rfl, rfl, rfl, rfl⟩
  | cons p ps ih =>
    have hturn : (predatorTurn coins s k p).1.prey = s.prey
        ∧ (predatorTurn coins s k p).1.prey_births = s.prey_births
        ∧ (predatorTurn coins s k p).1.predators = s.predators
        ∧ (predatorTurn coins s k p).1.current_round = s.current_round
        ∧ (predatorTurn coins s k p).1.default_rounds_until_starvation
            = s.default_rounds_until_starvation
        ∧ (predatorTurn coins s k p).1.winner = s.winner := by
      unfold predatorTurn
      cases hscan : scanPrey p coins (survivingPrey s) k with
      | mk o k2 =>
        cases o with
        | none => exact ⟨rfl, rfl, rfl, rfl, rfl, rfl⟩
        | some q => exact ⟨rfl, rfl, rfl, rfl, rfl, rfl⟩
    obtain ⟨t1, t2, t3, t4, t5, t6⟩ := hturn
    obtain ⟨i1, i2, i3, i4, i5, i6⟩ :=
        ih (predatorTurn coins s k p).1 (predatorTurn coins s k p).2.1
    exact ⟨by simp only [predatorPass]; rw [i1, t1],
           by simp only [predatorPass]; rw [i2, t2],
           by simp only [predatorPass]; rw [i3, t3],
           by simp only [predatorPass]; rw [i4, t4],
           by simp only [predatorPass]; rw [i5, t5],
           by simp only [predatorPass]; rw [i6, t6]⟩

/-- The lone-prey step is a no-op on squares whose prey list is not a
singleton. -/
theorem lonePreyPhase_of_not_single (X : SquareModel) (h : X.prey.length ≠ 1) :
    lonePreyPhase X = X := by
  unfold lonePreyPhase
  split
  · rename_i q heq
    exact absurd (by rw [heq]; rfl) h
  · rfl

/-- On a square whose prey list is the singleton `[q]`, the lone-prey step
fires exactly when `q` is not in the prey death list. -/
theorem lonePreyPhase_of_single (X : SquareModel) (q : PreyModel)
    (h : X.prey = [q]) :
    lonePreyPhase X
      = (if X.prey_deaths.any (fun d => d.pid == q.pid) then X
         else record_prey_reproducing X q) := by
  unfold lonePreyPhase
  split
  · rename_i q2 heq
    rw [h] at heq
    cases heq
    rfl
  · rename_i hne
    exact absurd h (fun hh => hne q hh)

/-- C4: starting from a round-start cell (empty transient prey lists), the
lone-prey reproduction step fires — two prey births are recorded — exactly
when the cell began the round with exactly one prey and the predator loop did
not record that prey as eaten; when the cell began with any other number of
prey, no prey birth is ever recorded, even if eating leaves exactly one prey
alive. -/
theorem lone_prey_reproduction_iff (coins : Nat → Bool) (s : SquareModel) (k : Nat)
    (hqb : s.prey_births = []) (_hqd : s.prey_deaths = []) :
    ((determine_survivors coins s k).2.1.prey_births.length = 2
        ↔ (s.prey.length = 1
            ∧ ∀ d ∈ (passPhase coins (sortPhase s) k).1.prey_deaths,
                ∀ q ∈ s.prey, d.pid ≠ q.pid))
  ∧ (s.prey.length ≠ 1 →
      (determine_survivors coins s k).2.1.prey_births = []) := by
  have hpass := predatorPass_preserves coins (sortPhase s).predators (sortPhase s) k
  have h2prey : (passPhase coins (sortPhase s) k).1.prey = s.prey.insertionSort preyLE := by
    show (predatorPass coins (sortPhase s).predators (sortPhase s) k).2.1.prey
        = s.prey.insertionSort preyLE
    rw [hpass.1]
    rfl
  have h2births : (passPhase coins (sortPhase s) k).1.prey_births = [] := by
    show (predatorPass coins (sortPhase s).predators (sortPhase s) k).2.1.prey_births = []
    rw [hpass.2.1]
    exact hqb
  have hds : (determine_survivors coins s k).2.1
      = enact_changes_to_births_and_deaths
          (starvationPhase (lonePreyPhase (passPhase coins (sortPhase s) k).1)) := rfl
  have hb_through : ∀ X : SquareModel,
      (enact_changes_to_births_and_deaths (starvationPhase X)).prey_births
        = X.prey_births := fun _ => rfl
  have hlen : (s.prey.insertionSort preyLE).length = s.prey.length :=
    (List.perm_insertionSort preyLE s.prey).length_eq
  by_cases hl : s.prey.length = 1
  · obtain ⟨q0, hq0⟩ := List.length_eq_one.1 hl
    have hsort1 : s.prey.insertionSort preyLE = [q0] := by rw [hq0]; rfl
    have hprey2 : (passPhase coins (sortPhase s) k).1.prey = [q0] := by
      rw [h2prey, hsort1]
    have hlone := lonePreyPhase_of_single _ q0 hprey2
    by_cases he : (passPhase coins (sortPhase s) k).1.prey_deaths.any
        (fun d => d.pid == q0.pid) = true
    · have hstay : lonePreyPhase (passPhase coins (sortPhase s) k).1
          = (passPhase coins (sortPhase s) k).1 := by rw [hlone, if_pos he]
      have hF : (determine_survivors coins s k).2.1.prey_births = [] := by
        rw [hds, hb_through, hstay, h2births]
      constructor
      · constructor
        · intro habs
          rw [hF] at habs
          simp at habs
        · rintro ⟨-, hall⟩
          exfalso
          obtain ⟨d, hd, hdq⟩ := List.any_eq_true.1 he
          exact hall d hd q0 (by rw [hq0]; exact List.mem_cons_self q0 [])
            (by simpa using hdq)
      · intro hne
        exact absurd hl hne
    · have hfire : lonePreyPhase (passPhase coins (sortPhase s) k).1
          = record_prey_reproducing (passPhase coins (sortPhase s) k).1 q0 := by
        rw [hlone, if_neg he]
      have hT : (determine_survivors coins s k).2.1.prey_births.length = 2 := by
        rw [hds, hb_through, hfire]
        show ((passPhase coins (sortPhase s) k).1.prey_births ++ _).length = 2
        rw [h2births]
        rfl
      constructor
      · constructor
        · intro _
          refine ⟨hl, ?_⟩
          intro d hd q hq
          have hq0eq : q = q0 := by rw [hq0] at hq; simpa using hq
          intro hpid
          exact he (List.any_eq_true.2 ⟨d, hd, by simp [hpid, hq0eq]⟩)
        · intro _
          exact hT
      · intro hne
        exact absurd hl hne
  · have hnot : (passPhase coins (sortPhase s) k).1.prey.length ≠ 1 := by
      rw [h2prey, hlen]
      exact hl
    have hlp := lonePreyPhase_of_not_single _ hnot
    have hbirths0 : (determine_survivors coins s k).2.1.prey_births = [] := by
      rw [hds, hb_through, hlp, h2births]
    constructor
    · constructor
      · intro habs
        rw [hbirths0] at habs
        simp at habs
      · rintro ⟨h1, -⟩
        exact absurd h1 hl
    · intro _
      exact hbirths0

/-- Witness for `lone_prey_reproduction_iff` at the concrete cell
`cellLonePrey` (a single prey, no predators). -/
theorem lone_prey_reproduction_iff_witness :
    ((determine_survivors coinsTrue cellLonePrey 0).2.1.prey_births.length = 2
        ↔ (cellLonePrey.prey.length = 1
            ∧ ∀ d ∈ (passPhase coinsTrue (sortPhase cellLonePrey) 0).1.prey_deaths,
                ∀ q ∈ cellLonePrey.prey, d.pid ≠ q.pid))
  ∧ (cellLonePrey.prey.length ≠ 1 →
      (determine_survivors coinsTrue cellLonePrey 0).2.1.prey_births = []) :=
  lone_prey_reproduction_iff coinsTrue cellLonePrey 0 rfl rfl

/-! ## C1: conservation of animals through resolution -/

/-- Removing from `P` exactly the elements whose key occurs in `D` (the
embedded form of the `not in`-filters of `enact_changes_to_births_and_deaths`)
shortens `P` by exactly `D.length`, provided keys are unique in `P` and in `D`
and every key of `D` occurs in `P`. -/
theorem length_filter_not_mem_key {α : Type} (f : α → Nat) (P D : List α)
    (hP : (P.map f).Nodup) (hD : (D.map f).Nodup)
    (hsub : ∀ x ∈ D, f x ∈ P.map f) :
    (P.filter (fun p => !(D.any (fun d => f d == f p)))).length + D.length = P.length := by
  have hany : ∀ p, (D.any (fun d => f d == f p) = true) ↔ f p ∈ D.map f := by
    intro p
    simp [List.any_eq_true]
  have hcongr : ∀ p ∈ P,
      (!(D.any (fun d => f d == f p))) = !(decide (f p ∈ D.map f)) := by
    intro p _
    by_cases h : f p ∈ D.map f
    · rw [(hany p).2 h, decide_eq_true h]
    · rw [Bool.eq_iff_iff]
      simp [hany, h]
      intro x hx he
      exact h (he ▸ List.mem_map_of_mem f hx)
  rw [List.filter_congr hcongr]
  have hsplit := List.length_eq_length_filter_add
    (l := P) (fun p => decide (f p ∈ D.map f))
  have hmain : (P.filter (fun p => decide (f p ∈ D.map f))).length = D.length := by
    have hmapfilter : (P.map f).filter (fun y => decide (y ∈ D.map f))
        = (P.filter ((fun y => decide (y ∈ D.map f)) ∘ f)).map f :=
      List.filter_map f P
    have hA_nodup : ((P.map f).filter (fun y => decide (y ∈ D.map f))).Nodup :=
      hP.filter _
    have hA_sub : ((P.map f).filter (fun y => decide (y ∈ D.map f))) ⊆ D.map f := by
      intro y hy
      have := List.of_mem_filter hy
      simpa using this
    have hD_sub : D.map f ⊆ ((P.map f).filter (fun y => decide (y ∈ D.map f))) := by
      intro y hy
      obtain ⟨x, hx, hxy⟩ := List.mem_map.1 hy
      refine List.mem_filter.2 ⟨?_, by simpa using hy⟩
      rw [← hxy]
      exact hsub x hx
    have hlenA : ((P.map f).filter (fun y => decide (y ∈ D.map f))).length
        = (D.map f).length :=
      Nat.le_antisymm (List.subperm_of_subset hA_nodup hA_sub).length_le
        (List.subperm_of_subset hD hD_sub).length_le
    have := hmapfilter ▸ hlenA
    simpa using this
  have hlenP : P.length = (P.filter (fun p => decide (f p ∈ D.map f))).length
      + (P.filter (fun p => !(decide (f p ∈ D.map f)))).length := hsplit
  omega

/-- The prey returned by the inner scan is an element of the scanned list. -/
theorem scanPrey_mem (pred : PredatorModel) (coins : Nat → Bool)
    (l : List PreyModel) (k k2 : Nat) (q : PreyModel)
    (h : scanPrey pred coins l k = (some q, k2)) : q ∈ l := by
  induction l generalizing k with
  | nil => simp [scanPrey] at h
  | cons a t ih =>
    rw [scanPrey] at h
    by_cases h1 : a.skill_level < pred.skill_level
    · rw [if_pos h1] at h
      cases h
      exact List.mem_cons_self _ _
    · rw [if_neg h1] at h
      by_cases h2 : a.skill_level = pred.skill_level
      · rw [if_pos h2] at h
        by_cases h3 : coins k
        · rw [if_pos h3] at h
          cases h
          exact List.mem_cons_self _ _
        · rw [if_neg h3] at h
          exact List.mem_cons_of_mem a (ih (k + 1) h)
      · rw [if_neg h2] at h
        exact List.mem_cons_of_mem a (ih k h)

/-- The predator loop returns the same predator objects (by identity) in the
same order: decrementing a starvation budget never changes a pid. -/
theorem predatorPass_pids (coins : Nat → Bool) (ps : List PredatorModel)
    (s : SquareModel) (k : Nat) :
    (predatorPass coins ps s k).1.map (fun p => p.pid) = ps.map (fun p => p.pid) := by
  induction ps generalizing s k with
  | nil => rfl
  | cons p ps ih =>
    have hpid : (predatorTurn coins s k p).2.2.pid = p.pid := by
      unfold predatorTurn
      cases hscan : scanPrey p coins (survivingPrey s) k with
      | mk o k2 =>
        cases o with
        | none => rfl
        | some q => rfl
    simp only [predatorPass, List.map_cons]
    rw [hpid, ih]

/-- Invariants of the death lists through the predator loop: prey-death pids
stay duplicate-free and drawn from the cell's prey; predator-death pids stay
duplicate-free and each comes either from the death list the loop started
with or from the processed predators. -/
theorem predatorPass_deaths (coins : Nat → Bool) (ps : List PredatorModel)
    (s : SquareModel) (k : Nat)
    (hQ : (s.prey.map (fun q => q.pid)).Nodup)
    (hQD : (s.prey_deaths.map (fun q => q.pid)).Nodup)
    (hQsub : ∀ x ∈ s.prey_deaths, x.pid ∈ s.prey.map (fun q => q.pid))
    (hps : (ps.map (fun p => p.pid)).Nodup)
    (hPDnd : (s.predator_deaths.map (fun p => p.pid)).Nodup)
    (hPD : ∀ x ∈ s.predator_deaths, x.pid ∉ ps.map (fun p => p.pid)) :
    ((predatorPass coins ps s k).2.1.prey_deaths.map (fun q => q.pid)).Nodup
  ∧ (∀ x ∈ (predatorPass coins ps s k).2.1.prey_deaths,
      x.pid ∈ s.prey.map (fun q => q.pid))
  ∧ ((predatorPass coins ps s k).2.1.predator_deaths.map (fun p => p.pid)).Nodup
  ∧ (∀ x ∈ (predatorPass coins ps s k).2.1.predator_deaths,
      x.pid ∈ s.predator_deaths.map (fun p => p.pid)
        ∨ x.pid ∈ ps.map (fun p => p.pid)) := by
  induction ps generalizing s k with
  | nil =>
    exact ⟨hQD, fun x hx => hQsub x hx, hPDnd,
           fun x hx => Or.inl (List.mem_map_of_mem _ hx)⟩
  | cons p ps ih =>
    have hps_cons : p.pid ∉ ps.map (fun x => x.pid)
        ∧ (ps.map (fun x => x.pid)).Nodup := by
      have := hps
      rw [List.map_cons, List.nodup_cons] at this
      exact this
    cases hscan : scanPrey p coins (survivingPrey s) k with
    | mk o k2 =>
      cases o with
      | none =>
        have hs1 : (predatorTurn coins s k p).1 = s := by
          unfold predatorTurn
          rw [hscan]
        have hk1 : (predatorTurn coins s k p).2.1 = k2 := by
          unfold predatorTurn
          rw [hscan]
        have hred : (predatorPass coins (p :: ps) s k).2.1
            = (predatorPass coins ps s k2).2.1 := by
          simp only [predatorPass]
          rw [hs1, hk1]
        have hPD2 : ∀ x ∈ s.predator_deaths, x.pid ∉ ps.map (fun q => q.pid) := by
          intro x hx hmem
          exact hPD x hx (by rw [List.map_cons]; exact List.mem_cons_of_mem _ hmem)
        obtain ⟨c1, c2, c3, c4⟩ := ih s k2 hQ hQD hQsub hps_cons.2 hPDnd hPD2
        rw [hred]
        refine ⟨c1, c2, c3, fun x hx => ?_⟩
        rcases c4 x hx with h | h
        · exact Or.inl h
        · exact Or.inr (by rw [List.map_cons]; exact List.mem_cons_of_mem _ h)
      | some q =>
        have hq_sur : q ∈ survivingPrey s :=
          scanPrey_mem p coins (survivingPrey s) k k2 q hscan
        have hq_mem : q ∈ s.prey := List.mem_of_mem_filter hq_sur
        have hq_not_dead : q.pid ∉ s.prey_deaths.map (fun d => d.pid) := by
          have hcond := List.of_mem_filter hq_sur
          intro hmem
          obtain ⟨d, hd, hdq⟩ := List.mem_map.1 hmem
          have : s.prey_deaths.any (fun d => d.pid == q.pid) = true :=
            List.any_eq_true.2 ⟨d, hd, by simp [hdq]⟩
          rw [this] at hcond
          simp at hcond
        have hs1 : (predatorTurn coins s k p).1
            = record_predator_eating_and_reproducing s p q := by
          unfold predatorTurn
          rw [hscan]
        have hk1 : (predatorTurn coins s k p).2.1 = k2 := by
          unfold predatorTurn
          rw [hscan]
        have hred : (predatorPass coins (p :: ps) s k).2.1
            = (predatorPass coins ps (record_predator_eating_and_reproducing s p q) k2).2.1 := by
          simp only [predatorPass]
          rw [hs1, hk1]
        have hp_not_dead : p.pid ∉ s.predator_deaths.map (fun d => d.pid) := by
          intro hmem
          obtain ⟨d, hd, hdp⟩ := List.mem_map.1 hmem
          exact hPD d hd (by rw [List.map_cons, hdp]; exact List.mem_cons_self _ _)
        -- the recorded square, field by field
        have e_prey : (record_predator_eating_and_reproducing s p q).prey = s.prey := rfl
        have e_qd : (record_predator_eating_and_reproducing s p q).prey_deaths
            = s.prey_deaths ++ [q] := rfl
        have e_pd : (record_predator_eating_and_reproducing s p q).predator_deaths
            = s.predator_deaths ++ [p] := rfl
        have hQD1 : (((s.prey_deaths ++ [q]).map (fun d => d.pid))).Nodup := by
          rw [List.map_append]
          refine hQD.append (by simp) ?_
          intro y hy1 hy2
          simp at hy2
          rw [hy2] at hy1
          exact hq_not_dead hy1
        have hQsub1 : ∀ x ∈ s.prey_deaths ++ [q],
            x.pid ∈ s.prey.map (fun d => d.pid) := by
          intro x hx
          rcases List.mem_append.1 hx with h | h
          · exact hQsub x h
          · simp at h
            rw [h]
            exact List.mem_map_of_mem _ hq_mem
        have hPDnd1 : (((s.predator_deaths ++ [p]).map (fun d => d.pid))).Nodup := by
          rw [List.map_append]
          refine hPDnd.append (by simp) ?_
          intro y hy1 hy2
          simp at hy2
          rw [hy2] at hy1
          exact hp_not_dead hy1
        have hPD1 : ∀ x ∈ s.predator_deaths ++ [p],
            x.pid ∉ ps.map (fun d => d.pid) := by
          intro x hx hmem
          rcases List.mem_append.1 hx with h | h
          · exact hPD x h (by rw [List.map_cons]; exact List.mem_cons_of_mem _ hmem)
          · simp at h
            rw [h] at hmem
            exact hps_cons.1 hmem
        obtain ⟨c1, c2, c3, c4⟩ := ih (record_predator_eating_and_reproducing s p q) k2
          (by rw [e_prey]; exact hQ)
          (by rw [e_qd]; exact hQD1)
          (by rw [e_qd, e_prey]; exact hQsub1)
          hps_cons.2
          (by rw [e_pd]; exact hPDnd1)
          (by rw [e_pd]; exact hPD1)
        rw [hred]
        refine ⟨c1, ?_, c3, ?_⟩
        · intro x hx
          have := c2 x hx
          rw [e_prey] at this
          exact this
        · intro x hx
          rcases c4 x hx with h | h
          · rw [e_pd, List.map_append] at h
            rcases List.mem_append.1 h with h2 | h2
            · exact Or.inl h2
            · simp at h2
              exact Or.inr (by rw [List.map_cons, h2]; exact List.mem_cons_self _ _)
          · exact Or.inr (by rw [List.map_cons]; exact List.mem_cons_of_mem _ h)

/-- The lone-prey step never touches the prey list, the predator list, or the
predator death and birth lists. -/
theorem lonePreyPhase_fields (X : SquareModel) :
    (lonePreyPhase X).prey = X.prey
  ∧ (lonePreyPhase X).predators = X.predators
  ∧ (lonePreyPhase X).predator_deaths = X.predator_deaths
  ∧ (lonePreyPhase X).predator_births = X.predator_births := by
  rcases hXp : X.prey with _ | ⟨a, _ | ⟨b, t2⟩⟩
  · rw [lonePreyPhase_of_not_single X (by rw [hXp]; simp)]
    exact ⟨hXp, rfl, rfl, rfl⟩
  · rw [lonePreyPhase_of_single X a hXp]
    by_cases hc : X.prey_deaths.any (fun d => d.pid == a.pid) = true
    · rw [if_pos hc]
      exact ⟨hXp, rfl, rfl, rfl⟩
    · rw [if_neg hc]
      exact ⟨hXp, rfl, rfl, rfl⟩
  · rw [lonePreyPhase_of_not_single X (by rw [hXp]; simp)]
    exact ⟨hXp, rfl, rfl, rfl⟩

/-- The lone-prey step keeps the prey death list duplicate-free (by pid) and
drawn from the prey of the cell: it only ever appends the single prey, and
only when that prey is not yet dead. -/
theorem lonePreyPhase_prey_deaths (X : SquareModel)
    (hnd : (X.prey_deaths.map (fun d => d.pid)).Nodup)
    (hsub : ∀ x ∈ X.prey_deaths, x.pid ∈ X.prey.map (fun d => d.pid)) :
    ((lonePreyPhase X).prey_deaths.map (fun d => d.pid)).Nodup
  ∧ ∀ x ∈ (lonePreyPhase X).prey_deaths, x.pid ∈ X.prey.map (fun d => d.pid) := by
  rcases hXp : X.prey with _ | ⟨a, _ | ⟨b, t2⟩⟩
  · rw [hXp] at hsub
    rw [lonePreyPhase_of_not_single X (by rw [hXp]; simp)]
    exact ⟨hnd, hsub⟩
  · rw [hXp] at hsub
    rw [lonePreyPhase_of_single X a hXp]
    by_cases hc : X.prey_deaths.any (fun d => d.pid == a.pid) = true
    · rw [if_pos hc]
      exact ⟨hnd, hsub⟩
    · rw [if_neg hc]
      have e : (record_prey_reproducing X a).prey_deaths = X.prey_deaths ++ [a] := rfl
      have ha_not : a.pid ∉ X.prey_deaths.map (fun d => d.pid) := by
        intro hmem
        obtain ⟨d, hd, hda⟩ := List.mem_map.1 hmem
        exact hc (List.any_eq_true.2 ⟨d, hd, by simp [hda]⟩)
      constructor
      · rw [e, List.map_append]
        refine hnd.append (by simp) ?_
        intro y hy1 hy2
        simp at hy2
        rw [hy2] at hy1
        exact ha_not hy1
      · intro x hx
        rw [e] at hx
        rcases List.mem_append.1 hx with h | h
        · exact hsub x h
        · simp at h
          rw [h]
          simp
  · rw [hXp] at hsub
    rw [lonePreyPhase_of_not_single X (by rw [hXp]; simp)]
    exact ⟨hnd, hsub⟩

/-- The starvation step appends to the predator death list only predators of
the cell that are not already dead, so the death list stays duplicate-free
(by pid) and drawn from the predators of the cell. -/
theorem starvationPhase_deaths (X : SquareModel)
    (hPnd : (X.predators.map (fun d => d.pid)).Nodup)
    (hnd : (X.predator_deaths.map (fun d => d.pid)).Nodup)
    (hsub : ∀ x ∈ X.predator_deaths, x.pid ∈ X.predators.map (fun d => d.pid)) :
    ((starvationPhase X).predator_deaths.map (fun d => d.pid)).Nodup
  ∧ ∀ x ∈ (starvationPhase X).predator_deaths,
      x.pid ∈ X.predators.map (fun d => d.pid) := by
  have e : (starvationPhase X).predator_deaths
      = X.predator_deaths ++ X.predators.filter (fun p =>
          !(X.predator_deaths.any (fun d => d.pid == p.pid))
            && p.rounds_until_starvation == 0) := rfl
  have hFnd : ((X.predators.filter (fun p =>
      !(X.predator_deaths.any (fun d => d.pid == p.pid))
        && p.rounds_until_starvation == 0)).map (fun d => d.pid)).Nodup :=
    hPnd.sublist ((List.filter_sublist _).map _)
  have hFdisj : ∀ x ∈ X.predators.filter (fun p =>
      !(X.predator_deaths.any (fun d => d.pid == p.pid))
        && p.rounds_until_starvation == 0),
      x.pid ∉ X.predator_deaths.map (fun d => d.pid) := by
    intro x hx hmem
    have hcond := List.of_mem_filter hx
    rw [Bool.and_eq_true] at hcond
    obtain ⟨d, hd, hdx⟩ := List.mem_map.1 hmem
    have : X.predator_deaths.any (fun d => d.pid == x.pid) = true :=
      List.any_eq_true.2 ⟨d, hd, by simp [hdx]⟩
    rw [this] at hcond
    simp at hcond
  constructor
  · rw [e, List.map_append]
    refine hnd.append hFnd ?_
    intro y hy1 hy2
    obtain ⟨x, hx, hxy⟩ := List.mem_map.1 hy2
    rw [← hxy] at hy1
    exact hFdisj x hx hy1
  · intro x hx
    rw [e] at hx
    rcases List.mem_append.1 hx with h | h
    · exact hsub x h
    · exact List.mem_map_of_mem _ (List.mem_of_mem_filter h)

/-- Conservation from the end of the predator loop onward: starting from any
square whose death lists are duplicate-free (by pid) and drawn from the
animals present, the lone-prey step, the starvation step and the enactment
step together change each population by exactly births minus deaths. -/
theorem conservation_post_pass (X2 : SquareModel)
    (hQ2 : (X2.prey.map (fun q => q.pid)).Nodup)
    (hP2 : (X2.predators.map (fun p => p.pid)).Nodup)
    (hqd2 : (X2.prey_deaths.map (fun q => q.pid)).Nodup)
    (hqsub2 : ∀ x ∈ X2.prey_deaths, x.pid ∈ X2.prey.map (fun q => q.pid))
    (hpd2 : (X2.predator_deaths.map (fun p => p.pid)).Nodup)
    (hpsub2 : ∀ x ∈ X2.predator_deaths,
        x.pid ∈ X2.predators.map (fun p => p.pid)) :
    (enact_changes_to_births_and_deaths
          (starvationPhase (lonePreyPhase X2))).predators.length
        + (enact_changes_to_births_and_deaths
            (starvationPhase (lonePreyPhase X2))).predator_deaths.length
      = X2.predators.length
        + (enact_changes_to_births_and_deaths
            (starvationPhase (lonePreyPhase X2))).predator_births.length
  ∧ (enact_changes_to_births_and_deaths
          (starvationPhase (lonePreyPhase X2))).prey.length
        + (enact_changes_to_births_and_deaths
            (starvationPhase (lonePreyPhase X2))).prey_deaths.length
      = X2.prey.length
        + (enact_changes_to_births_and_deaths
            (starvationPhase (lonePreyPhase X2))).prey_births.length := by
  obtain ⟨f1, f2, f3, f4⟩ := lonePreyPhase_fields X2
  obtain ⟨g1, g2⟩ := lonePreyPhase_prey_deaths X2 hqd2 hqsub2
  obtain ⟨s1, s2⟩ := starvationPhase_deaths (lonePreyPhase X2)
    (by rw [f2]; exact hP2)
    (by rw [f3]; exact hpd2)
    (by intro x hx; rw [f3] at hx; rw [f2]; exact hpsub2 x hx)
  have hcountP : ((starvationPhase (lonePreyPhase X2)).predators.filter (fun p =>
        !((starvationPhase (lonePreyPhase X2)).predator_deaths.any
            (fun d => d.pid == p.pid)))).length
      + (starvationPhase (lonePreyPhase X2)).predator_deaths.length
      = (starvationPhase (lonePreyPhase X2)).predators.length :=
    length_filter_not_mem_key (fun a => a.pid)
      (starvationPhase (lonePreyPhase X2)).predators
      (starvationPhase (lonePreyPhase X2)).predator_deaths
      (by show ((lonePreyPhase X2).predators.map (fun p => p.pid)).Nodup
          rw [f2]; exact hP2)
      s1
      (fun x hx => s2 x hx)
  have hcountQ : ((starvationPhase (lonePreyPhase X2)).prey.filter (fun q =>
        !((starvationPhase (lonePreyPhase X2)).prey_deaths.any
            (fun d => d.pid == q.pid)))).length
      + (starvationPhase (lonePreyPhase X2)).prey_deaths.length
      = (starvationPhase (lonePreyPhase X2)).prey.length :=
    length_filter_not_mem_key (fun a => a.pid)
      (starvationPhase (lonePreyPhase X2)).prey
      (starvationPhase (lonePreyPhase X2)).prey_deaths
      (by show ((lonePreyPhase X2).prey.map (fun q => q.pid)).Nodup
          rw [f1]; exact hQ2)
      g1
      (by intro x hx
          show x.pid ∈ (lonePreyPhase X2).prey.map (fun q => q.pid)
          rw [f1]
          exact g2 x hx)
  have hlenP : (starvationPhase (lonePreyPhase X2)).predators.length
      = X2.predators.length := by
    show (lonePreyPhase X2).predators.length = X2.predators.length
    rw [f2]
  have hlenQ : (starvationPhase (lonePreyPhase X2)).prey.length
      = X2.prey.length := by
    show (lonePreyPhase X2).prey.length = X2.prey.length
    rw [f1]
  constructor
  · show ((starvationPhase (lonePreyPhase X2)).predators.filter (fun p =>
        !((starvationPhase (lonePreyPhase X2)).predator_deaths.any
            (fun d => d.pid == p.pid)))
        ++ (starvationPhase (lonePreyPhase X2)).predator_births).length
        + (starvationPhase (lonePreyPhase X2)).predator_deaths.length
      = X2.predators.length
        + (starvationPhase (lonePreyPhase X2)).predator_births.length
    rw [List.length_append]
    omega
  · show ((starvationPhase (lonePreyPhase X2)).prey.filter (fun q =>
        !((starvationPhase (lonePreyPhase X2)).prey_deaths.any
            (fun d => d.pid == q.pid)))
        ++ (starvationPhase (lonePreyPhase X2)).prey_births).length
        + (starvationPhase (lonePreyPhase X2)).prey_deaths.length
      = X2.prey.length
        + (starvationPhase (lonePreyPhase X2)).prey_births.length
    rw [List.length_append]
    omega

/-- C1: resolving a round-start cell (empty death lists) whose predator and
prey lists hold pairwise-distinct objects conserves animals: afterwards,
`predators.length + predator_deaths.length
  = predators_before.length + predator_births.length`, and symmetrically for
prey — every change of population is accounted for by the recorded birth and
death lists. -/
theorem determine_survivors_conservation (coins : Nat → Bool) (s : SquareModel)
    (k : Nat)
    (hpd : s.predator_deaths = []) (hqd : s.prey_deaths = [])
    (hP : (s.predators.map (fun p => p.pid)).Nodup)
    (hQ : (s.prey.map (fun q => q.pid)).Nodup) :
    (determine_survivors coins s k).2.1.predators.length
        + (determine_survivors coins s k).2.1.predator_deaths.length
      = s.predators.length
        + (determine_survivors coins s k).2.1.predator_births.length
  ∧ (determine_survivors coins s k).2.1.prey.length
        + (determine_survivors coins s k).2.1.prey_deaths.length
      = s.prey.length + (determine_survivors coins s k).2.1.prey_births.length := by
  have hpres := predatorPass_preserves coins (sortPhase s).predators (sortPhase s) k
  have hpids := predatorPass_pids coins (sortPhase s).predators (sortPhase s) k
  have hQs : ((sortPhase s).prey.map (fun q => q.pid)).Nodup :=
    ((List.perm_insertionSort preyLE s.prey).map (fun q => q.pid)).nodup_iff.2 hQ
  have hPs : ((sortPhase s).predators.map (fun p => p.pid)).Nodup :=
    ((List.perm_insertionSort predGE s.predators).map (fun p => p.pid)).nodup_iff.2 hP
  have hSqd : (sortPhase s).prey_deaths = [] := hqd
  have hSpd : (sortPhase s).predator_deaths = [] := hpd
  obtain ⟨hd1, hd2, hd3, hd4⟩ :=
    predatorPass_deaths coins (sortPhase s).predators (sortPhase s) k hQs
      (by rw [hSqd]; exact List.nodup_nil)
      (by intro x hx; rw [hSqd] at hx; simp at hx)
      hPs
      (by rw [hSpd]; exact List.nodup_nil)
      (by intro x hx; rw [hSpd] at hx; simp at hx)
  have hX2preds : (passPhase coins (sortPhase s) k).1.predators.map (fun p => p.pid)
      = (sortPhase s).predators.map (fun p => p.pid) := hpids
  have hX2prey : (passPhase coins (sortPhase s) k).1.prey = (sortPhase s).prey :=
    hpres.1
  obtain ⟨A, B⟩ := conservation_post_pass (passPhase coins (sortPhase s) k).1
    (by rw [hX2prey]; exact hQs)
    (by
      have h1 : ((passPhase coins (sortPhase s) k).1.predators.map
          (fun p => p.pid)).Nodup ↔
          ((sortPhase s).predators.map (fun p => p.pid)).Nodup := by
        rw [hX2preds]
      exact h1.2 hPs)
    hd1
    (by intro x hx
        rw [hX2prey]
        exact hd2 x hx)
    hd3
    (by intro x hx
        rw [hX2preds]
        rcases hd4 x hx with h | h
        · rw [hSpd] at h
          simp at h
        · exact h)
  have hfinal : (determine_survivors coins s k).2.1
      = enact_changes_to_births_and_deaths
          (starvationPhase (lonePreyPhase (passPhase coins (sortPhase s) k).1)) := rfl
  have hlenP2 : (passPhase coins (sortPhase s) k).1.predators.length
      = s.predators.length := by
    have h2 := congrArg List.length hX2preds
    rw [List.length_map, List.length_map] at h2
    rw [h2]
    exact (List.perm_insertionSort predGE s.predators).length_eq
  have hlenQ2 : (passPhase coins (sortPhase s) k).1.prey.length = s.prey.length := by
    rw [hX2prey]
    exact (List.perm_insertionSort preyLE s.prey).length_eq
  constructor
  · rw [hfinal, A, hlenP2]
  · rw [hfinal, B, hlenQ2]

/-- Witness for `determine_survivors_conservation` at the concrete scenario-E
cell (two predators, one prey, one eating event, one starvation). -/
theorem determine_survivors_conservation_witness :
    (determine_survivors coinsTrue cellScenE 0).2.1.predators.length
        + (determine_survivors coinsTrue cellScenE 0).2.1.predator_deaths.length
      = cellScenE.predators.length
        + (determine_survivors coinsTrue cellScenE 0).2.1.predator_births.length
  ∧ (determine_survivors coinsTrue cellScenE 0).2.1.prey.length
        + (determine_survivors coinsTrue cellScenE 0).2.1.prey_deaths.length
      = cellScenE.prey.length
        + (determine_survivors coinsTrue cellScenE 0).2.1.prey_births.length :=
  determine_survivors_conservation coinsTrue cellScenE 0 rfl rfl
    (by decide) (by decide)
